import Mathlib

/-!
Verification of the Goldcoin Proof-of-Participation consensus core.

This file gives a shallow embedding, in Lean 4, of the parts of the
source tree that the checked claims talk about:

* `main_simplified.h` : monetary constants, `CheckProofOfWork`,
  `CBlock::CheckBlock`, `CTransaction::IsCoinBase`, `MoneyRange`;
* `participation.cpp` / `goldcoin.h` (part_004) : the two
  `GetBlockValue` subsidy schedules and `IsProofOfParticipationActive`;
* `participation.h` (part_005) : `ParticipationEntry`, `isMatured`,
  `ParticipationValidator::getActiveParticipants`, `VRF::selectWinner`;
* `serialize_modern.h` (part_001) : `Buffer`, `CompactSize`
  serialization and deserialization, `to_bytes`;
* `hybridfee_modern.h/.cpp` and the `HybridFeeSystem` (part_008) :
  priority scoring, free-zone classification and the two-zone block
  template construction;
* `net_modern.h` (part_006) : the per-peer handshake state
  (`version_sent_` / `version_received_`, `Node::IsFullyConnected`,
  `Node::ProcessMessage`).

Machine integers are embedded as `Nat` / `Int` (with explicit `% 2^w`
where the source casts), C++ `double` priority arithmetic as `ℚ`, and
fallible operations as `Except`.  External cryptographic primitives
(SHA-256, ECDSA) are out of scope in the source as well; where a hash
value feeds an algorithm it is taken as an explicit argument.
-/

namespace GoldcoinPoP

/-! ## Monetary and block constants (`main_simplified.h`, `goldcoin_consensus.h`) -/

/-- `COIN = 100000000` from `main_simplified.h`. -/
def COIN : Int := 100000000

/-- `MAX_MONEY = 1172245700 * COIN` from `main_simplified.h`. -/
def MAX_MONEY : Int := 1172245700 * COIN

/-- `MAX_BLOCK_SIZE = 32 * 1024 * 1024` from `main_simplified.h` (the bound
used by `CBlock::CheckBlock`). -/
def MAX_BLOCK_SIZE : Nat := 32 * 1024 * 1024

/-- `goldcoin::consensus::MAX_BLOCK_SIZE = 32'000'000` from
`goldcoin_consensus.h`, the constant used by the hybrid fee system. -/
def consensusMaxBlockSize : Nat := 32000000

/-- `HARD_FORK_HEIGHT = 3500000` (`goldcoin.h`, equal to
`POP_ACTIVATION_HEIGHT` in `main_simplified.h`). -/
def HARD_FORK_HEIGHT : Nat := 3500000

/-- `MoneyRange` from `main_simplified.h`:
`nValue >= 0 && nValue <= MAX_MONEY`. -/
def MoneyRange (nValue : Int) : Bool :=
  decide (0 ≤ nValue ∧ nValue ≤ MAX_MONEY)

/-! ## Proof-of-work check (`main_simplified.h`) and activation -/

/-- `CheckProofOfWork` from `main_simplified.h` lines 259-262: the body is
literally `return true;` (comment: "NOT NEEDED FOR PROOF OF PARTICIPATION!").
The header hash and the compact difficulty field are ignored. -/
def CheckProofOfWork (hash : Nat) (nBits : Nat) : Bool :=
  true

/-- `IsProofOfParticipationActive` from `goldcoin.h` (part_004):
`nHeight >= HARD_FORK_HEIGHT`. -/
def IsProofOfParticipationActive (nHeight : Nat) : Bool :=
  decide (HARD_FORK_HEIGHT ≤ nHeight)

/-- `CBigNum::SetCompact` from the bundled bignum code in
`hybridfee_modern.cpp` lines 950-963, as a value: the size is the top byte
of `nCompact`, the sign flag is bit 23 (`0x00800000`), the mantissa is
`nCompact & 0x007fffff`; for sizes at most 3 the mantissa is shifted right
by `8 * (3 - size)` bits, otherwise shifted left by `8 * (size - 3)` bits,
and the sign flag negates the result. -/
def SetCompact (nCompact : Nat) : Int :=
  let nSize := nCompact >>> 24
  let fNegative := nCompact &&& 0x00800000 ≠ 0
  let nWord := nCompact &&& 0x007fffff
  let magnitude : Nat :=
    if nSize ≤ 3 then nWord >>> (8 * (3 - nSize))
    else nWord <<< (8 * (nSize - 3))
  if fNegative then -(magnitude : Int) else (magnitude : Int)

/-! ## Block subsidy schedules (`participation.cpp` and `goldcoin.h`) -/

/-- `GetBlockValue` from `participation.cpp` lines 204-217: subsidy
`50 * COIN` shifted right by `nHeight / 840000`, clamped below at `COIN`
("Never go below 1 GLC minimum reward"), plus fees. -/
def GetBlockValue (nHeight : Nat) (nFees : Int) : Int :=
  let nSubsidy : Nat := (50 * 100000000) >>> (nHeight / 840000)
  let clamped : Int := if (nSubsidy : Int) < COIN then COIN else (nSubsidy : Int)
  clamped + nFees

/-- `goldcoin::GetBlockValue` from `goldcoin.h` (part_004) lines 621-639: a
stepped schedule `50 / 25 / 10 / 5 / 2 * COIN` with breakpoints at 840000,
1680000, 2520000 and 3360000, plus fees. -/
def goldcoinGetBlockValue (nHeight : Nat) (nFees : Int) : Int :=
  let nSubsidy : Int :=
    if nHeight < 840000 then 50 * COIN
    else if nHeight < 1680000 then 25 * COIN
    else if nHeight < 2520000 then 10 * COIN
    else if nHeight < 3360000 then 5 * COIN
    else 2 * COIN
  nSubsidy + nFees

/-! ## Participation registry and lottery (`participation.h`, part_005) -/

/-- `MINIMUM_STAKE = 100 * COIN` from `participation.h` (part_005). -/
def MINIMUM_STAKE : Int := 100 * COIN

/-- `STAKE_MATURITY = 1440` blocks from `participation.h` (part_005). -/
def STAKE_MATURITY : Int := 1440

/-- `ParticipationEntry` from `participation.h` (part_005): the staking
transaction id, staked amount, participant address and the height the stake
was made at.  `uint256`/`uint160` values are embedded as `Nat`. -/
structure ParticipationEntry where
  txid : Nat
  amount : Int
  address : Nat
  height : Int
deriving DecidableEq

/-- `ParticipationEntry::isMatured` from part_005:
`(currentHeight - height) >= STAKE_MATURITY`. -/
def ParticipationEntry.isMatured (p : ParticipationEntry) (currentHeight : Int) : Bool :=
  decide (STAKE_MATURITY ≤ currentHeight - p.height)

/-- `ParticipationValidator::getActiveParticipants` from part_005: filters the
registered entries by `isMatured currentHeight` (and nothing else). -/
def getActiveParticipants (activeParticipants : List ParticipationEntry)
    (currentHeight : Int) : List ParticipationEntry :=
  activeParticipants.filter (fun p => p.isMatured currentHeight)

/-- `VRF::selectWinner` from part_005.  The source computes
`selection = Hash(seed || blockHeight)` and returns
`participants[selection.Get64() % participants.size()]`; the 64-bit value
`selection.Get64()` of the external hash is taken here as the explicit
argument `selection64`. -/
def selectWinner (selection64 : Nat)
    (participants : List ParticipationEntry) : Option ParticipationEntry :=
  if participants.isEmpty then none
  else participants[selection64 % participants.length]?

/-! ## Transactions and blocks (`main_simplified.h`) -/

/-- `COutPoint`: a transaction hash (as `Nat`) and an output index. -/
structure OutPoint where
  hash : Nat
  n : Nat
deriving DecidableEq

/-- `COutPoint::IsNull`: hash `0` and index `-1` (i.e. `0xFFFFFFFF`). -/
def OutPoint.IsNull (op : OutPoint) : Bool :=
  op.hash == 0 && op.n == 0xFFFFFFFF

/-- `CTxIn`: previous outpoint, signature script bytes and sequence. -/
structure TxIn where
  prevout : OutPoint
  scriptSig : List Nat
  nSequence : Nat
deriving DecidableEq

/-- `CTxOut`: value and locking script bytes. -/
structure TxOut where
  nValue : Int
  scriptPubKey : List Nat
deriving DecidableEq

/-- `CTransaction` from `main_simplified.h`. -/
structure Transaction where
  nVersion : Int
  vin : List TxIn
  vout : List TxOut
  nLockTime : Nat
deriving DecidableEq

/-- `CTransaction::IsCoinBase`:
`vin.size() == 1 && vin[0].prevout.IsNull()`. -/
def Transaction.IsCoinBase (tx : Transaction) : Bool :=
  match tx.vin with
  | [i] => i.prevout.IsNull
  | _ => false

/-- Modelled from the spec: the body of `CTransaction::CheckTransaction` is
only declared in `main_simplified.h` and not present under `src/`.  Following
the spec's syntactic per-transaction checks (mempool admission step 2 of
section 4.E together with the section 3 data model): non-empty input and
output sets, every output value in the money range, and the total output
value in the money range. -/
def CheckTransaction (tx : Transaction) : Bool :=
  !tx.vin.isEmpty && !tx.vout.isEmpty &&
  tx.vout.all (fun o => MoneyRange o.nValue) &&
  MoneyRange ((tx.vout.map TxOut.nValue).sum)

/-- `CBlock::CheckBlock` from `main_simplified.h` lines 158-178: fail on an
empty transaction list or `vtx.size() > MAX_BLOCK_SIZE` (note: the number of
transactions, not a byte size), require the first transaction to be a
coinbase, and require every transaction to pass `CheckTransaction`. -/
def CheckBlock (vtx : List Transaction) : Bool :=
  match vtx with
  | [] => false
  | t0 :: _ =>
    decide (vtx.length ≤ MAX_BLOCK_SIZE) && t0.IsCoinBase &&
    vtx.all CheckTransaction

/-- The outpoints spent by all inputs of all transactions of a block, in
order. -/
def blockSpentOutpoints (vtx : List Transaction) : List OutPoint :=
  (vtx.map (fun tx => tx.vin.map TxIn.prevout)).flatten

/-- Whether two inputs across a block's transactions spend the same
outpoint (the duplicate-spend condition named by the spec). -/
def blockSpendsDuplicateOutpoint (vtx : List Transaction) : Bool :=
  !decide (blockSpentOutpoints vtx).Nodup

/-- A coinbase transaction used as a concrete test block member. -/
def demoCoinbase : Transaction :=
  { nVersion := 1
    vin := [{ prevout := { hash := 0, n := 0xFFFFFFFF }, scriptSig := [], nSequence := 0 }]
    vout := [{ nValue := 50 * COIN, scriptPubKey := [] }]
    nLockTime := 0 }

/-- A transaction spending outpoint `(5, 0)`. -/
def demoSpendA : Transaction :=
  { nVersion := 1
    vin := [{ prevout := { hash := 5, n := 0 }, scriptSig := [], nSequence := 0 }]
    vout := [{ nValue := 1, scriptPubKey := [] }]
    nLockTime := 0 }

/-- A second, distinct transaction spending the same outpoint `(5, 0)`. -/
def demoSpendB : Transaction :=
  { nVersion := 1
    vin := [{ prevout := { hash := 5, n := 0 }, scriptSig := [], nSequence := 0 }]
    vout := [{ nValue := 2, scriptPubKey := [] }]
    nLockTime := 0 }

/-- A block whose second and third transactions spend the same outpoint. -/
def demoDupBlock : List Transaction :=
  [demoCoinbase, demoSpendA, demoSpendB]

/-! ## Serialization codec (`serialize_modern.h`, part_001) -/

/-- `bitcoin::serialize::Error` from part_001. -/
inductive SerError where
  | buffer_overflow
  | invalid_format
  | size_too_large
  | unexpected_end
  | invalid_variant_index
deriving DecidableEq

/-- `MAX_SIZE = 0x02000000` from part_001 (32 MiB decode bound). -/
def MAX_SIZE : Nat := 0x02000000

/-- The little-endian byte expansion of width `k` of a value, as produced by
`Buffer::write<T>` for a `k`-byte unsigned integer. -/
def leBytes : Nat → Nat → List Nat
  | 0, _ => []
  | k + 1, n => n % 256 :: leBytes k (n / 256)

/-- The value read back from little-endian bytes, as done by
`Buffer::read<T>`. -/
def decodeLE : List Nat → Nat
  | [] => 0
  | b :: bs => b + 256 * decodeLE bs

/-- `CompactSize::encoded_size` from part_001 lines 135-140. -/
def compactSizeEncodedSize (value : Nat) : Nat :=
  if value < 253 then 1
  else if value ≤ 0xFFFF then 3
  else if value ≤ 0xFFFFFFFF then 5
  else 9

/-- `CompactSize::serialize` from part_001 lines 142-157; the casts
`static_cast<uint8/16/32>` appear as `% 2^w`, and the stored `value_` is a
`uint64`, hence the final `% 2^64`. -/
def compactSizeSerialize (value : Nat) : List Nat :=
  if value < 253 then [value % 256]
  else if value ≤ 0xFFFF then 253 :: leBytes 2 (value % 2 ^ 16)
  else if value ≤ 0xFFFFFFFF then 254 :: leBytes 4 (value % 2 ^ 32)
  else 255 :: leBytes 8 (value % 2 ^ 64)

/-- `CompactSize::deserialize` from part_001 lines 159-188: read the tag
byte; a tag below 253 is the value itself (returned without any bound
check); otherwise read a 2-, 4- or 8-byte little-endian value and reject
values above `MAX_SIZE` with `size_too_large`.  The byte list plays the
buffer's role, and the unread remainder is returned with the value. -/
def compactSizeDeserialize : List Nat → Except SerError (Nat × List Nat)
  | [] => .error .unexpected_end
  | first :: rest =>
    if first < 253 then .ok (first, rest)
    else
      let width := if first == 253 then 2 else if first == 254 then 4 else 8
      if rest.length < width then .error .unexpected_end
      else
        let value := decodeLE (rest.take width)
        if MAX_SIZE < value then .error .size_too_large
        else .ok (value, rest.drop width)

/-- The fixed-capacity write buffer of part_001: a capacity and the bytes
written so far (`position` is `contents.length`). -/
structure SBuffer where
  capacity : Nat
  contents : List Nat
deriving DecidableEq

/-- `Buffer::write_bytes` from part_001 lines 79-87: fail with
`buffer_overflow` when `remaining() < bytes.size()` (`has_space`), else copy
the bytes at the cursor and advance it. -/
def SBuffer.write_bytes (buf : SBuffer) (bytes : List Nat) : Except SerError SBuffer :=
  if buf.capacity - buf.contents.length ≥ bytes.length then
    .ok ⟨buf.capacity, buf.contents ++ bytes⟩
  else
    .error .buffer_overflow

/-- Run a sequence of `write_bytes` calls, stopping at the first error: the
shape of every `Serializer<T>::serialize` in part_001 (each primitive write
bottoms out in one `write_bytes` call). -/
def runWrites (buf : SBuffer) : List (List Nat) → Except SerError SBuffer
  | [] => .ok buf
  | c :: cs =>
    match buf.write_bytes c with
    | .ok buf2 => runWrites buf2 cs
    | .error e => .error e

/-- The chunks written by `CompactSize::serialize`: one byte for the small
form, else a tag byte followed by one multi-byte write. -/
def compactSizeChunks (value : Nat) : List (List Nat) :=
  if value < 253 then [[value % 256]]
  else if value ≤ 0xFFFF then [[253], leBytes 2 (value % 2 ^ 16)]
  else if value ≤ 0xFFFFFFFF then [[254], leBytes 4 (value % 2 ^ 32)]
  else [[255], leBytes 8 (value % 2 ^ 64)]

/-- The write sequence of `Serializer<std::vector<uint8>>::serialize` from
part_001 lines 246-256: the compact size of the length, then one 1-byte
write per element. -/
def serializeVecU8Chunks (vec : List Nat) : List (List Nat) :=
  compactSizeChunks vec.length ++ vec.map (fun b => [b % 256])

/-- `to_bytes` from part_001 lines 296-309: serialize into a buffer created
over a 1024-byte vector (`std::vector<byte_t> bytes(1024)`), which is never
grown; on success the bytes written so far are returned.  Instantiated at
`std::vector<uint8>` payloads. -/
def to_bytes (vec : List Nat) : Except SerError (List Nat) :=
  match runWrites ⟨1024, []⟩ (serializeVecU8Chunks vec) with
  | .ok buf => .ok buf.contents
  | .error e => .error e

/-- Total number of bytes a write sequence asks to write. -/
def chunksTotalLen (chunks : List (List Nat)) : Nat :=
  (chunks.map List.length).sum

/-! ## Hybrid fee system (`hybridfee_modern.h/.cpp` and part_008) -/

/-- `goldcoin::fees::FeeError` from `hybridfee_modern.h`. -/
inductive FeeError where
  | InvalidTransaction
  | BlockFull
  | InsufficientFee
  | PriorityTooLow
  | NetworkError
deriving DecidableEq

/-- `FREE_TX_PRIORITY_THRESHOLD = 57'600'000.0` from `hybridfee_modern.h`.
The C++ `double` priority arithmetic is embedded in `ℚ`. -/
def FREE_TX_PRIORITY_THRESHOLD : ℚ := 57600000

/-- `PriorityCalculator::InputInfo`: the spent output's value and its
confirmation count. -/
structure InputInfo where
  value : Int
  confirmations : Int
deriving DecidableEq

/-- `PriorityCalculator::PriorityResult`. -/
structure PriorityResult where
  priority_score : ℚ
  qualifies_for_free : Bool
  suggested_fee : Int
  category : String
deriving DecidableEq

/-- `PriorityCalculator::ComputeInputPriority`:
`value * confirmations`. -/
def ComputeInputPriority (input : InputInfo) : ℚ :=
  (input.value : ℚ) * (input.confirmations : ℚ)

/-- `PriorityCalculator::CalculatePriority` from `hybridfee_modern.cpp`
lines 15-66: reject empty inputs or zero size; the score is the summed
input priority divided by the transaction size; `qualifies_for_free` is
`priority_score >= FREE_TX_PRIORITY_THRESHOLD` (non-strict); otherwise
classify by the ratio to the threshold and suggest a fee. -/
def CalculatePriority (inputs : List InputInfo) (transaction_size_bytes : Nat) :
    Except FeeError PriorityResult :=
  if inputs.isEmpty || transaction_size_bytes == 0 then
    .error .InvalidTransaction
  else
    let total_priority : ℚ := (inputs.map ComputeInputPriority).sum
    let priority_score : ℚ := total_priority / (transaction_size_bytes : ℚ)
    if FREE_TX_PRIORITY_THRESHOLD ≤ priority_score then
      .ok { priority_score := priority_score, qualifies_for_free := true
            suggested_fee := 0, category := "free" }
    else
      let priority_ratio := priority_score / FREE_TX_PRIORITY_THRESHOLD
      if 1 / 2 < priority_ratio then
        .ok { priority_score := priority_score, qualifies_for_free := false
              suggested_fee := (transaction_size_bytes : Int) * 500, category := "low_fee" }
      else if 1 / 10 < priority_ratio then
        .ok { priority_score := priority_score, qualifies_for_free := false
              suggested_fee := (transaction_size_bytes : Int) * 1000, category := "standard" }
      else
        .ok { priority_score := priority_score, qualifies_for_free := false
              suggested_fee := (transaction_size_bytes : Int) * 2000, category := "priority" }

/-- `DEFAULT_BLOCK_MAX_SIZE = 32000000` from `HybridFeeSystem` (part_008). -/
def DEFAULT_BLOCK_MAX_SIZE : Nat := 32000000

/-- `DEFAULT_BLOCK_PRIORITY_SIZE = DEFAULT_BLOCK_MAX_SIZE * 5 / 100` from
part_008: the free 5% of the block. -/
def DEFAULT_BLOCK_PRIORITY_SIZE : Nat := DEFAULT_BLOCK_MAX_SIZE * 5 / 100

/-- `MIN_TX_FEE = 100000` from part_008. -/
def MIN_TX_FEE : Int := 100000

/-- `FREE_TX_PRIORITY = 57600000` from `HybridFeeSystem` (part_008). -/
def FREE_TX_PRIORITY : ℚ := 57600000

/-- `HybridFeeSystem::GetPriority` from part_008 lines 42-61: zero for a
coinbase; else each input contributes the hard-coded
`100 * COIN * 144` (the source's placeholder input value and age), and the
sum is divided by the serialized transaction size, which is taken as the
explicit argument `nTxSize`. -/
def GetPriority (tx : Transaction) (nTxSize : Nat) : ℚ :=
  if tx.IsCoinBase then 0
  else
    let dPriority : ℚ := (tx.vin.map (fun _ => ((100 * COIN : Int) : ℚ) * 144)).sum
    dPriority / (nTxSize : ℚ)

/-- `HybridFeeSystem::GetTransactionFee` from part_008 lines 97-104: zero for
a coinbase and the placeholder `0` otherwise. -/
def GetTransactionFee (tx : Transaction) : Int :=
  if tx.IsCoinBase then 0 else 0

/-- `HybridFeeSystem::GetMinimumFee` from part_008 lines 107-117. -/
def GetMinimumFee (nCurrentBlockSize : Nat) (nBytes : Nat) : Int :=
  if nCurrentBlockSize < DEFAULT_BLOCK_PRIORITY_SIZE then 0
  else MIN_TX_FEE * (1 + (nBytes / 1000 : Nat))

/-- The free-classification condition of
`HybridFeeSystem::ValidateTransaction` (part_008 lines 64-94): the branch
that accepts a transaction as a free high-priority transaction requires the
current block fill to be inside the 5% priority zone and the priority to be
STRICTLY above `FREE_TX_PRIORITY`. -/
def classifiesFreeHighPriority (nCurrentBlockSize : Nat) (tx : Transaction)
    (nTxSize : Nat) : Bool :=
  decide (nCurrentBlockSize < DEFAULT_BLOCK_PRIORITY_SIZE ∧
    FREE_TX_PRIORITY < GetPriority tx nTxSize)

/-- `HybridFeeSystem::ValidateTransaction` from part_008 lines 64-94 in
full: the free high-priority branch returns true; otherwise the transaction
is rejected only when the block is past the priority zone, the fee is below
the minimum and the block is over 90% full. -/
def ValidateTransaction (nCurrentBlockSize : Nat) (tx : Transaction)
    (nTxSize : Nat) : Bool :=
  if classifiesFreeHighPriority nCurrentBlockSize tx nTxSize then true
  else
    let nMinFee := GetMinimumFee nCurrentBlockSize nTxSize
    let nTxFee := GetTransactionFee tx
    if DEFAULT_BLOCK_PRIORITY_SIZE < nCurrentBlockSize ∧ nTxFee < nMinFee ∧
        DEFAULT_BLOCK_MAX_SIZE * 90 / 100 < nCurrentBlockSize then false
    else true

/-- A non-coinbase transaction with one input, whose `GetPriority` at
serialized size 25000 is exactly `57600000`. -/
def demoThresholdTx : Transaction :=
  { nVersion := 1
    vin := [{ prevout := { hash := 7, n := 0 }, scriptSig := [], nSequence := 0 }]
    vout := [{ nValue := 1, scriptPubKey := [] }]
    nLockTime := 0 }

/-- `BlockSpaceManager::TransactionCandidate` from `hybridfee_modern.h`;
the held transaction is represented by its hash (`tx.GetHash()`, used only
for the dedup test in `BuildBlockTemplate`), and its priority result by the
`qualifies_for_free` flag and score the selection code reads. -/
structure TransactionCandidate where
  tx_hash : Nat
  qualifies_for_free : Bool
  priority_score : ℚ
  fee_paid : Int
  received_time : Nat
  size_bytes : Nat
deriving DecidableEq

/-- `FREE_ZONE_SIZE = MAX_BLOCK_SIZE * 5 / 100` from `hybridfee_modern.h`
(with `goldcoin::consensus::MAX_BLOCK_SIZE`). -/
def FREE_ZONE_SIZE : Nat := consensusMaxBlockSize * 5 / 100

/-- One insertion step of sorting candidates by descending
`priority_score` (the comparator of `SelectFreeTransactions`). -/
def insertByPriorityDesc (c : TransactionCandidate) :
    List TransactionCandidate → List TransactionCandidate
  | [] => [c]
  | x :: xs =>
    if x.priority_score < c.priority_score then c :: x :: xs
    else x :: insertByPriorityDesc c xs

/-- Sort candidates by descending `priority_score`. -/
def sortByPriorityDesc (l : List TransactionCandidate) : List TransactionCandidate :=
  l.foldr insertByPriorityDesc []

/-- The greedy fill loop of `SelectFreeTransactions` (hybridfee_modern.cpp
lines 156-166): take candidates while they fit in `FREE_ZONE_SIZE`, and
`break` at the first one that does not. -/
def fillFreeZone : List TransactionCandidate → Nat → List TransactionCandidate
  | [], _ => []
  | c :: cs, used_space =>
    if used_space + c.size_bytes ≤ FREE_ZONE_SIZE then
      c :: fillFreeZone cs (used_space + c.size_bytes)
    else []

/-- `BlockSpaceManager::SelectFreeTransactions` from `hybridfee_modern.cpp`
lines 140-169: filter the free-qualifying candidates, sort by descending
priority, and fill the 5% free zone greedily. -/
def SelectFreeTransactions (candidates : List TransactionCandidate) :
    List TransactionCandidate :=
  fillFreeZone (sortByPriorityDesc (candidates.filter (fun c => c.qualifies_for_free))) 0

/-- The fee rate `fee_paid * 1000 / size_bytes` ("per KB") computed by the
comparator of `SelectFeeTransactions`. -/
def feeRatePerKB (c : TransactionCandidate) : Int :=
  c.fee_paid * 1000 / (c.size_bytes : Int)

/-- One insertion step of sorting by descending fee rate, oldest first on
ties (the comparator of `SelectFeeTransactions`). -/
def insertByFeeDesc (c : TransactionCandidate) :
    List TransactionCandidate → List TransactionCandidate
  | [] => [c]
  | x :: xs =>
    if feeRatePerKB x < feeRatePerKB c ∨
        (feeRatePerKB x = feeRatePerKB c ∧ c.received_time < x.received_time) then
      c :: x :: xs
    else x :: insertByFeeDesc c xs

/-- Sort candidates by descending fee rate, oldest first on ties. -/
def sortByFeeDesc (l : List TransactionCandidate) : List TransactionCandidate :=
  l.foldr insertByFeeDesc []

/-- The fill loop of `SelectFeeTransactions` (hybridfee_modern.cpp lines
193-207): candidates that do not fit are skipped (`continue`), not a break. -/
def fillFeeZone (available_space : Nat) :
    List TransactionCandidate → Nat → List TransactionCandidate
  | [], _ => []
  | c :: cs, used_space =>
    if used_space + c.size_bytes ≤ available_space then
      c :: fillFeeZone available_space cs (used_space + c.size_bytes)
    else fillFeeZone available_space cs used_space

/-- `BlockSpaceManager::SelectFeeTransactions` from `hybridfee_modern.cpp`
lines 171-208. -/
def SelectFeeTransactions (candidates : List TransactionCandidate)
    (available_space : Nat) : List TransactionCandidate :=
  fillFeeZone available_space
    (sortByFeeDesc (candidates.filter (fun c => 0 < c.fee_paid))) 0

/-- `BlockSpaceManager::BlockTemplate` (the fields the claims read). -/
structure BlockTemplate where
  free_transactions : List TransactionCandidate
  fee_transactions : List TransactionCandidate
  total_size_bytes : Nat
  total_fees_collected : Int
deriving DecidableEq

/-- `BlockSpaceManager::BuildBlockTemplate` from `hybridfee_modern.cpp`
lines 84-138: select the free zone, compute the space it used, select
fee-paying transactions (excluding, by transaction hash, those already in
the free zone) into the remaining space, and total the sizes and fees. -/
def BuildBlockTemplate (mempool : List TransactionCandidate) : BlockTemplate :=
  let free_txs := SelectFreeTransactions mempool
  let free_zone_used := (free_txs.map TransactionCandidate.size_bytes).sum
  let remaining_space := consensusMaxBlockSize - free_zone_used
  let remaining_candidates :=
    mempool.filter (fun c => !(free_txs.any (fun f => f.tx_hash == c.tx_hash)))
  let fee_txs := SelectFeeTransactions remaining_candidates remaining_space
  { free_transactions := free_txs
    fee_transactions := fee_txs
    total_size_bytes := free_zone_used + (fee_txs.map TransactionCandidate.size_bytes).sum
    total_fees_collected := (fee_txs.map TransactionCandidate.fee_paid).sum }

/-! ## Peer handshake state (`net_modern.h`, part_006) -/

/-- The handshake flags of `bitcoin::net::Node`: the `version_sent_` and
`version_received_` booleans. -/
structure NodeState where
  version_sent : Bool
  version_received : Bool
deriving DecidableEq

/-- A fresh node: both flags false (the `Node` constructor). -/
def initialNode : NodeState :=
  { version_sent := false, version_received := false }

/-- The events that touch the handshake flags: `PushVersion` (sends our
`version` and sets `version_sent_`) and the receipt of a command string
dispatched to `Node::ProcessMessage`. -/
inductive NodeEvent where
  | pushVersion
  | recvMessage (command : String)
deriving DecidableEq

/-- One step of the per-peer state machine, from `Node::PushVersion` and
`Node::ProcessMessage` (part_006 lines 452-478): receiving `version` sets
`version_received_` (and replies with a `verack`); receiving `verack` does
nothing; every other command leaves both flags unchanged. -/
def stepNode (s : NodeState) : NodeEvent → NodeState
  | .pushVersion => { s with version_sent := true }
  | .recvMessage command =>
    if command = "version" then { s with version_received := true } else s

/-- The node state after a sequence of events. -/
def runNode (events : List NodeEvent) : NodeState :=
  events.foldl stepNode initialNode

/-- `Node::IsFullyConnected` from part_006 lines 359-361:
`version_sent_ && version_received_`. -/
def IsFullyConnected (s : NodeState) : Bool :=
  s.version_sent && s.version_received

deriving instance DecidableEq for Except

/-! ## Theorems

One theorem per claim (with a witness when the theorem has a hypothesis,
and a counterexample where the claim as stated fails on the code), after
the helper lemmas they use. -/

/-- Claim C1 (amended): `CheckProofOfWork` returns `true` for every header
hash and every compact difficulty field; in particular a pre-activation
block (any height with `IsProofOfParticipationActive` false) passes this
check no matter what its hash is, so the legacy path performs no
proof-of-work verification. -/
theorem checkProofOfWork_accepts_everything (nHeight hash nBits : Nat)
    (hpre : IsProofOfParticipationActive nHeight = false) :
    CheckProofOfWork hash nBits = true := rfl

theorem checkProofOfWork_accepts_everything_witness :
    IsProofOfParticipationActive 0 = false ∧ CheckProofOfWork 2 0x03000001 = true :=
  ⟨by decide, checkProofOfWork_accepts_everything 0 2 0x03000001 (by decide)⟩

/-- Counterexample to claim C1 as stated: at hash `2` and compact bits
`0x03000001` (size 3, positive mantissa 1, hence target `1` under
`CBigNum::SetCompact`), `CheckProofOfWork` returns `true` although the hash
exceeds the target, so `CheckProofOfWork hash nBits = true` is not
equivalent to `hash ≤ target(nBits)`. -/
theorem checkProofOfWork_ignores_target :
    SetCompact 0x03000001 = 1 ∧
    ¬ (CheckProofOfWork 2 0x03000001 = true ↔ (2 : Int) ≤ SetCompact 0x03000001) := by
  decide

/-- Claim C2 (amended): the shift-based `GetBlockValue` of
`participation.cpp` returns `max (initial_subsidy >>> (h / 840000)) COIN`
plus fees — the spec's formula with floor `COIN` — and it agrees with the
stepped-schedule `goldcoin::GetBlockValue` only below height 1680000; the
two definitions do not return the same subsidy at every height. -/
theorem getBlockValue_shift_clamped (nHeight : Nat) (nFees : Int) :
    GetBlockValue nHeight nFees =
      max (((50 * 100000000 : Nat) >>> (nHeight / 840000) : Nat) : Int) COIN + nFees ∧
    (nHeight < 1680000 → GetBlockValue nHeight nFees = goldcoinGetBlockValue nHeight nFees) := by
  constructor
  · show (if (((50 * 100000000 : Nat) >>> (nHeight / 840000) : Nat) : Int) < COIN
        then COIN else (((50 * 100000000 : Nat) >>> (nHeight / 840000) : Nat) : Int)) + nFees = _
    rcases lt_or_le (((50 * 100000000 : Nat) >>> (nHeight / 840000) : Nat) : Int) COIN with h | h
    · rw [if_pos h, max_eq_right h.le]
    · rw [if_neg (not_lt.mpr h), max_eq_left h]
  · intro hlt
    rcases lt_or_le nHeight 840000 with h8 | h8
    · have hdiv : nHeight / 840000 = 0 := by omega
      simp only [GetBlockValue, goldcoinGetBlockValue, COIN, hdiv, if_pos h8,
        Nat.shiftRight_eq_div_pow]
      norm_num
    · have hdiv : nHeight / 840000 = 1 := by omega
      simp only [GetBlockValue, goldcoinGetBlockValue, COIN, hdiv, if_neg (by omega : ¬ nHeight < 840000),
        if_pos hlt, Nat.shiftRight_eq_div_pow]
      norm_num

theorem getBlockValue_shift_clamped_witness :
    GetBlockValue 0 0 = max (((50 * 100000000 : Nat) >>> (0 / 840000) : Nat) : Int) COIN + 0 ∧
    GetBlockValue 0 0 = goldcoinGetBlockValue 0 0 :=
  ⟨(getBlockValue_shift_clamped 0 0).1, (getBlockValue_shift_clamped 0 0).2 (by decide)⟩

/-- Counterexample to claim C2 as stated: at height 1680000 the shift-based
definition pays `12.5 GLC` (`1250000000` units) while the stepped schedule
pays `10 GLC` (`1000000000` units), so the two `GetBlockValue` definitions
do not return the same subsidy at every height. -/
theorem getBlockValue_schedules_disagree :
    GetBlockValue 1680000 0 = 1250000000 ∧ goldcoinGetBlockValue 1680000 0 = 1000000000 ∧
    GetBlockValue 1680000 0 ≠ goldcoinGetBlockValue 1680000 0 := by decide

/-- Claim C3 (amended): a registered participant takes part in the lottery
draw at height `H` if and only if its stake is mature,
`H - stake_height ≥ STAKE_MATURITY`: `getActiveParticipants` filters on
maturity only and does not test `stake_amount ≥ MINIMUM_STAKE`. -/
theorem activeParticipants_maturity_only (entries : List ParticipationEntry)
    (currentHeight : Int) (p : ParticipationEntry) :
    p ∈ getActiveParticipants entries currentHeight ↔
      p ∈ entries ∧ STAKE_MATURITY ≤ currentHeight - p.height := by
  simp [getActiveParticipants, List.mem_filter, ParticipationEntry.isMatured]

/-- Counterexample to claim C3 as stated: an entry with stake amount `0`,
strictly below `MINIMUM_STAKE`, is nevertheless returned by
`getActiveParticipants` once mature, so eligibility is not the conjunction
of the stake-amount and maturity conditions. -/
theorem activeParticipants_ignore_minimum_stake :
    getActiveParticipants [⟨0, 0, 0, 0⟩] 1440 = [⟨0, 0, 0, 0⟩] ∧
    (⟨0, 0, 0, 0⟩ : ParticipationEntry).amount < MINIMUM_STAKE := by decide

/-- Claim C4 (amended): on a non-empty participant list, `selectWinner`
produces exactly one winner — the entry at index
`Hash(seed ‖ height).Get64 mod n` — which is a member of the list; there is
no per-participant output threshold and no tie-breaking, and at most one
participant wins any draw. -/
theorem selectWinner_unique_by_index (selection64 : Nat)
    (participants : List ParticipationEntry) (hne : participants ≠ []) :
    ∃ w, selectWinner selection64 participants = some w ∧ w ∈ participants ∧
      participants[selection64 % participants.length]? = some w ∧
      ∀ w2, selectWinner selection64 participants = some w2 → w2 = w := by
  have hlen : 0 < participants.length := List.length_pos.mpr hne
  have hidx : selection64 % participants.length < participants.length :=
    Nat.mod_lt _ hlen
  have hget : participants[selection64 % participants.length]? =
      some participants[selection64 % participants.length] :=
    List.getElem?_eq_getElem hidx
  have hsel : selectWinner selection64 participants =
      some participants[selection64 % participants.length] := by
    simp only [selectWinner, List.isEmpty_eq_false.mpr hne, if_neg Bool.false_ne_true, hget]
  exact ⟨participants[selection64 % participants.length], hsel,
    List.getElem_mem hidx, hget, fun w2 hw2 => by
      rw [hsel] at hw2; exact (Option.some.injEq _ _ ▸ hw2).symm ▸ rfl⟩

theorem selectWinner_unique_by_index_witness :
    ([⟨1, 0, 1, 0⟩] : List ParticipationEntry) ≠ [] ∧
    (∃ w, selectWinner 3 [⟨1, 0, 1, 0⟩] = some w ∧
      w ∈ ([⟨1, 0, 1, 0⟩] : List ParticipationEntry) ∧
      ([⟨1, 0, 1, 0⟩] : List ParticipationEntry)[3 % ([⟨1, 0, 1, 0⟩] :
        List ParticipationEntry).length]? = some w ∧
      ∀ w2, selectWinner 3 [⟨1, 0, 1, 0⟩] = some w2 → w2 = w) :=
  ⟨by decide, selectWinner_unique_by_index 3 [⟨1, 0, 1, 0⟩] (by decide)⟩

/-- Counterexample to claim C4 as stated: with the same two participants at
the same draw, the winner changes when the list order changes (and is always
unique), so winning is determined by the position selected by
`hash mod n`, not by an order-independent condition `output < TARGET(H)`
that several participants could satisfy simultaneously. -/
theorem selectWinner_depends_on_order :
    selectWinner 0 [⟨1, 0, 1, 0⟩, ⟨2, 0, 2, 0⟩] = some ⟨1, 0, 1, 0⟩ ∧
    selectWinner 0 [⟨2, 0, 2, 0⟩, ⟨1, 0, 1, 0⟩] = some ⟨2, 0, 2, 0⟩ ∧
    (⟨1, 0, 1, 0⟩ : ParticipationEntry) ≠ ⟨2, 0, 2, 0⟩ := by decide

/-- Claim C5 (amended): `CheckBlock` accepts a block exactly when its
transaction list is non-empty, the number of transactions is at most
`MAX_BLOCK_SIZE`, the first transaction is a coinbase, and every transaction
passes `CheckTransaction`; it does not reject duplicate input outpoints
across transactions, and the `MAX_BLOCK_SIZE` comparison bounds the
transaction count, not the serialized byte size. -/
theorem checkBlock_characterization (vtx : List Transaction) :
    CheckBlock vtx = true ↔
      (∃ t0 rest, vtx = t0 :: rest ∧ t0.IsCoinBase = true) ∧
      vtx.length ≤ MAX_BLOCK_SIZE ∧ ∀ tx ∈ vtx, CheckTransaction tx = true := by
  cases vtx with
  | nil => simp [CheckBlock]
  | cons t0 rest =>
    simp only [CheckBlock, Bool.and_eq_true, decide_eq_true_eq, List.all_eq_true]
    constructor
    · rintro ⟨⟨hlen, hcb⟩, hall⟩
      exact ⟨⟨t0, rest, rfl, hcb⟩, hlen, hall⟩
    · rintro ⟨⟨t0h, resth, heq, hcb⟩, hlen, hall⟩
      cases heq
      exact ⟨⟨hlen, hcb⟩, hall⟩

/-- Counterexample to claim C5 as stated: `demoDupBlock` has two distinct
transactions both spending outpoint `(5, 0)`, yet `CheckBlock` accepts it —
the syntactic block check does not enforce "no two inputs across the block's
transactions spend the same outpoint". -/
theorem checkBlock_allows_duplicate_outpoints :
    CheckBlock demoDupBlock = true ∧ blockSpendsDuplicateOutpoint demoDupBlock = true := by
  decide

/-- The little-endian expansion has exactly its requested width. -/
theorem leBytes_length (k : Nat) : ∀ n, (leBytes k n).length = k := by
  induction k with
  | zero => intro n; rfl
  | succ k ih => intro n; simp [leBytes, ih]

/-- Reading back a 2-byte little-endian write recovers the value mod `2^16`. -/
theorem decodeLE_leBytes_two (n : Nat) : decodeLE (leBytes 2 n) = n % 65536 := by
  simp [leBytes, decodeLE]
  omega

/-- Reading back a 4-byte little-endian write recovers the value mod `2^32`. -/
theorem decodeLE_leBytes_four (n : Nat) : decodeLE (leBytes 4 n) = n % 4294967296 := by
  simp [leBytes, decodeLE]
  omega

/-- Claim C6 (amended): for every `n` in `[0, 2^64)` the encoded length of
`CompactSize(n)` matches the 1/3/5/9-byte table, and deserializing the
serialization yields `n` back whenever `n ≤ MAX_SIZE = 0x02000000`; above
`MAX_SIZE` the decoder rejects the value (`size_too_large`), so the
round-trip does not hold on all of `[0, 2^64)`. -/
theorem compactSize_roundtrip (n : Nat) (h64 : n < 2 ^ 64) :
    (compactSizeSerialize n).length = compactSizeEncodedSize n ∧
    (n ≤ MAX_SIZE → compactSizeDeserialize (compactSizeSerialize n) = .ok (n, [])) := by
  rcases lt_or_le n 253 with h1 | h1
  · have hser : compactSizeSerialize n = [n] := by
      simp only [compactSizeSerialize, if_pos h1]
      norm_num
      omega
    refine ⟨?_, fun _ => ?_⟩
    · rw [hser]; simp [compactSizeEncodedSize, h1]
    · rw [hser]
      simp only [compactSizeDeserialize, if_pos h1]
  · rcases le_or_lt n 0xFFFF with h2 | h2
    · have hser : compactSizeSerialize n = 253 :: leBytes 2 (n % 65536) := by
        simp only [compactSizeSerialize, if_neg (by omega : ¬ n < 253), if_pos h2]
        norm_num
      have hlen : (leBytes 2 (n % 65536)).length = 2 := leBytes_length 2 _
      have htake : (leBytes 2 (n % 65536)).take 2 = leBytes 2 (n % 65536) := by
        rw [← hlen]; exact List.take_length _
      have hdrop : (leBytes 2 (n % 65536)).drop 2 = [] := by
        rw [← hlen]; exact List.drop_length _
      refine ⟨?_, fun _ => ?_⟩
      · rw [hser]
        simp only [List.length_cons, hlen, compactSizeEncodedSize,
          if_neg (by omega : ¬ n < 253), if_pos h2]
      · rw [hser]
        simp only [compactSizeDeserialize]
        norm_num [MAX_SIZE, hlen]
        rw [htake, decodeLE_leBytes_two, hdrop]
        rw [if_neg (by omega)]
        have hmod : n % 65536 % 65536 = n := by omega
        rw [hmod]
    · rcases le_or_lt n 0xFFFFFFFF with h3 | h3
      · have hser : compactSizeSerialize n = 254 :: leBytes 4 (n % 4294967296) := by
          simp only [compactSizeSerialize, if_neg (by omega : ¬ n < 253),
            if_neg (by omega : ¬ n ≤ 0xFFFF), if_pos h3]
          norm_num
        have hlen : (leBytes 4 (n % 4294967296)).length = 4 := leBytes_length 4 _
        have htake : (leBytes 4 (n % 4294967296)).take 4 = leBytes 4 (n % 4294967296) := by
          rw [← hlen]; exact List.take_length _
        have hdrop : (leBytes 4 (n % 4294967296)).drop 4 = [] := by
          rw [← hlen]; exact List.drop_length _
        refine ⟨?_, fun hmax => ?_⟩
        · rw [hser]
          simp only [List.length_cons, hlen, compactSizeEncodedSize,
            if_neg (by omega : ¬ n < 253), if_neg (by omega : ¬ n ≤ 0xFFFF), if_pos h3]
        · rw [hser]
          simp only [compactSizeDeserialize]
          norm_num [MAX_SIZE, hlen]
          rw [htake, decodeLE_leBytes_four, hdrop]
          rw [if_neg (by simp only [MAX_SIZE] at hmax; omega)]
          have hmod : n % 4294967296 % 4294967296 = n := by omega
          rw [hmod]
      · have hser : compactSizeSerialize n = 255 :: leBytes 8 (n % 2 ^ 64) := by
          simp only [compactSizeSerialize, if_neg (by omega : ¬ n < 253),
            if_neg (by omega : ¬ n ≤ 0xFFFF), if_neg (by omega : ¬ n ≤ 0xFFFFFFFF)]
        refine ⟨?_, fun hmax => ?_⟩
        · rw [hser]
          simp only [List.length_cons, leBytes_length, compactSizeEncodedSize,
            if_neg (by omega : ¬ n < 253), if_neg (by omega : ¬ n ≤ 0xFFFF),
            if_neg (by omega : ¬ n ≤ 0xFFFFFFFF)]
        · exact absurd hmax (by simp only [MAX_SIZE]; omega)

theorem compactSize_roundtrip_witness :
    (compactSizeSerialize 300).length = compactSizeEncodedSize 300 ∧
    compactSizeDeserialize (compactSizeSerialize 300) = .ok (300, []) :=
  ⟨(compactSize_roundtrip 300 (by decide)).1,
    (compactSize_roundtrip 300 (by decide)).2 (by decide)⟩

/-- Counterexample to claim C6 as stated: `n = 0x02000001` is in `[0, 2^64)`
and serializes fine, but deserializing its serialization fails with
`size_too_large` instead of yielding `n`. -/
theorem compactSize_roundtrip_fails_above_max :
    compactSizeDeserialize (compactSizeSerialize 33554433) = .error .size_too_large ∧
    compactSizeDeserialize (compactSizeSerialize 33554433) ≠ .ok (33554433, []) := by
  decide

/-- `CalculatePriority` succeeds on non-degenerate input and marks the
result free exactly when the score reaches the threshold (non-strict). -/
theorem calculatePriority_qualifies_iff (inputs : List InputInfo) (size : Nat)
    (hne : inputs ≠ []) (hsz : size ≠ 0) :
    ∃ r, CalculatePriority inputs size = .ok r ∧
      (r.qualifies_for_free = true ↔
        FREE_TX_PRIORITY_THRESHOLD ≤ (inputs.map ComputeInputPriority).sum / (size : ℚ)) := by
  simp only [CalculatePriority]
  rw [if_neg (by simp [List.isEmpty_iff, hne, hsz])]
  split
  · rename_i h
    exact ⟨_, rfl, by simpa using h⟩
  · rename_i h
    split
    · exact ⟨_, rfl, by simpa using h⟩
    · split
      · exact ⟨_, rfl, by simpa using h⟩
      · exact ⟨_, rfl, by simpa using h⟩

/-- The free branch of `HybridFeeSystem::ValidateTransaction` requires a
strictly-above-threshold priority. -/
theorem classifiesFree_iff (nCurrentBlockSize : Nat) (tx : Transaction) (nTxSize : Nat) :
    classifiesFreeHighPriority nCurrentBlockSize tx nTxSize = true ↔
      (nCurrentBlockSize < DEFAULT_BLOCK_PRIORITY_SIZE ∧
        FREE_TX_PRIORITY < GetPriority tx nTxSize) := by
  simp [classifiesFreeHighPriority]

/-- Claim C7 (amended): the modern `PriorityCalculator::CalculatePriority`
marks a transaction free-eligible exactly when its priority score is at
least `57,600,000` — equality included — while the `HybridFeeSystem`
admission path of part_008 classifies a transaction as a free high-priority
transaction only when its priority is strictly above `57,600,000` (and the
free zone is not yet full); a transaction whose score equals the threshold
exactly is free-eligible in the former but not free-classified in the
latter. -/
theorem priority_threshold_boundaries :
    (∀ (inputs : List InputInfo) (size : Nat), inputs ≠ [] → size ≠ 0 →
      ∃ r, CalculatePriority inputs size = .ok r ∧
        (r.qualifies_for_free = true ↔
          FREE_TX_PRIORITY_THRESHOLD ≤ (inputs.map ComputeInputPriority).sum / (size : ℚ))) ∧
    (∀ (nCurrentBlockSize : Nat) (tx : Transaction) (nTxSize : Nat),
      classifiesFreeHighPriority nCurrentBlockSize tx nTxSize = true ↔
        (nCurrentBlockSize < DEFAULT_BLOCK_PRIORITY_SIZE ∧
          FREE_TX_PRIORITY < GetPriority tx nTxSize)) :=
  ⟨calculatePriority_qualifies_iff, classifiesFree_iff⟩

theorem priority_threshold_boundaries_witness :
    ∃ r, CalculatePriority [⟨57600000, 1⟩] 1 = .ok r ∧
      (r.qualifies_for_free = true ↔
        FREE_TX_PRIORITY_THRESHOLD ≤
          (([⟨57600000, 1⟩] : List InputInfo).map ComputeInputPriority).sum / ((1 : Nat) : ℚ)) :=
  priority_threshold_boundaries.1 [⟨57600000, 1⟩] 1 (by decide) (by decide)

/-- Counterexample to claim C7 as stated: `demoThresholdTx` at serialized
size 25000 has priority score exactly `57,600,000 ≥` the free threshold, yet
the `HybridFeeSystem` admission path does not classify it as a free
high-priority transaction (its comparison is strict). -/
theorem threshold_equality_not_free_in_hybrid :
    FREE_TX_PRIORITY_THRESHOLD ≤ GetPriority demoThresholdTx 25000 ∧
    classifiesFreeHighPriority 0 demoThresholdTx 25000 = false := by
  have hp : GetPriority demoThresholdTx 25000 = 57600000 := by
    simp [GetPriority, demoThresholdTx, Transaction.IsCoinBase, OutPoint.IsNull, COIN]
    norm_num
  constructor
  · rw [hp]; norm_num [FREE_TX_PRIORITY_THRESHOLD]
  · simp [classifiesFreeHighPriority, hp, FREE_TX_PRIORITY]

/-- The greedy free-zone fill never exceeds `FREE_ZONE_SIZE` beyond the
space already used. -/
theorem fillFreeZone_sum_le (cs : List TransactionCandidate) :
    ∀ used, used + ((fillFreeZone cs used).map TransactionCandidate.size_bytes).sum ≤
      max FREE_ZONE_SIZE used := by
  induction cs with
  | nil => intro used; simp [fillFreeZone, Nat.le_max_right]
  | cons c cs ih =>
    intro used
    by_cases h : used + c.size_bytes ≤ FREE_ZONE_SIZE
    · rw [fillFreeZone, if_pos h]
      have h2 := ih (used + c.size_bytes)
      rw [Nat.max_eq_left h] at h2
      calc used + ((c :: fillFreeZone cs (used + c.size_bytes)).map
            TransactionCandidate.size_bytes).sum
          = used + c.size_bytes +
            ((fillFreeZone cs (used + c.size_bytes)).map TransactionCandidate.size_bytes).sum := by
            simp; omega
        _ ≤ FREE_ZONE_SIZE := h2
        _ ≤ max FREE_ZONE_SIZE used := Nat.le_max_left _ _
    · rw [fillFreeZone, if_neg h]
      simp [Nat.le_max_right]

/-- Claim C8: for every mempool, the free zone of the template built by
`BuildBlockTemplate` has total transaction size at most
`⌊MAX_BLOCK_SIZE * 5 / 100⌋` bytes (the fixed 5% free fraction of the block
byte budget, `1,600,000` bytes for the 32,000,000-byte block). -/
theorem free_zone_size_bound (mempool : List TransactionCandidate) :
    (((BuildBlockTemplate mempool).free_transactions.map TransactionCandidate.size_bytes)).sum ≤
      consensusMaxBlockSize * 5 / 100 := by
  have h := fillFreeZone_sum_le
    (sortByPriorityDesc (mempool.filter (fun c => c.qualifies_for_free))) 0
  simp only [Nat.zero_add, Nat.max_zero] at h
  simpa [BuildBlockTemplate, SelectFreeTransactions, FREE_ZONE_SIZE, consensusMaxBlockSize] using h

/-- After any event sequence, `version_sent_` is set exactly when a
`PushVersion` happened. -/
theorem foldl_stepNode_sent (events : List NodeEvent) :
    ∀ s : NodeState, (events.foldl stepNode s).version_sent =
      (s.version_sent || decide (NodeEvent.pushVersion ∈ events)) := by
  induction events with
  | nil => intro s; simp
  | cons e es ih =>
    intro s
    rw [List.foldl_cons, ih]
    cases e with
    | pushVersion => simp [stepNode]
    | recvMessage cmd =>
      by_cases h : cmd = "version"
      · simp [stepNode, h]
      · have h2 : ¬ ("version" = cmd) := fun hh => h hh.symm
        simp [stepNode, h, h2]

/-- After any event sequence, `version_received_` is set exactly when a
`version` message was received. -/
theorem foldl_stepNode_received (events : List NodeEvent) :
    ∀ s : NodeState, (events.foldl stepNode s).version_received =
      (s.version_received || decide (NodeEvent.recvMessage ("version") ∈ events)) := by
  induction events with
  | nil => intro s; simp
  | cons e es ih =>
    intro s
    rw [List.foldl_cons, ih]
    cases e with
    | pushVersion => simp [stepNode]
    | recvMessage cmd =>
      by_cases h : cmd = "version"
      · simp [stepNode, h]
      · have h2 : ¬ ("version" = cmd) := fun hh => h hh.symm
        simp [stepNode, h, h2]

/-- Claim C9 (amended): a peer is fully connected (`Ready`) exactly when the
node has SENT its `version` message and has RECEIVED a `version` message;
receipt of `verack` plays no part in reaching `Ready` — `ProcessMessage`
ignores it. -/
theorem fully_connected_iff_sent_and_received (events : List NodeEvent) :
    IsFullyConnected (runNode events) =
      (decide (NodeEvent.pushVersion ∈ events) &&
        decide (NodeEvent.recvMessage ("version") ∈ events)) := by
  simp [IsFullyConnected, runNode, foldl_stepNode_sent, foldl_stepNode_received, initialNode]

/-- Counterexample to claim C9 as stated: a peer that has received both a
`version` and a `verack` message (but has not sent its own `version`) is not
`Ready`, so `Ready` is not equivalent to "version received and verack
received". -/
theorem verack_receipt_not_sufficient :
    NodeEvent.recvMessage ("version") ∈
      [NodeEvent.recvMessage ("version"), NodeEvent.recvMessage ("verack")] ∧
    NodeEvent.recvMessage ("verack") ∈
      [NodeEvent.recvMessage ("version"), NodeEvent.recvMessage ("verack")] ∧
    IsFullyConnected (runNode
      [NodeEvent.recvMessage ("version"), NodeEvent.recvMessage ("verack")]) = false := by
  decide

/-- Unfolding lemma for the total write length. -/
theorem chunksTotalLen_cons (c : List Nat) (cs : List (List Nat)) :
    chunksTotalLen (c :: cs) = c.length + chunksTotalLen cs := by
  simp [chunksTotalLen]

/-- If a write sequence asks for more bytes than the buffer has left, the
run fails with `buffer_overflow` (the buffer is never grown). -/
theorem runWrites_overflow (chunks : List (List Nat)) :
    ∀ buf : SBuffer, buf.contents.length ≤ buf.capacity →
      buf.capacity < buf.contents.length + chunksTotalLen chunks →
      runWrites buf chunks = .error .buffer_overflow := by
  induction chunks with
  | nil =>
    intro buf hle hlt
    rw [chunksTotalLen] at hlt
    simp at hlt
    omega
  | cons c cs ih =>
    intro buf hle hlt
    rw [chunksTotalLen_cons] at hlt
    rw [runWrites]
    unfold SBuffer.write_bytes
    by_cases h : buf.capacity - buf.contents.length ≥ c.length
    · rw [if_pos h]
      exact ih ⟨buf.capacity, buf.contents ++ c⟩ (by simp; omega) (by simp; omega)
    · rw [if_neg h]

/-- Mapping every element to `1` and summing counts the elements. -/
theorem sum_map_one (l : List Nat) : (l.map (fun _ => 1)).sum = l.length := by
  induction l with
  | nil => rfl
  | cons x xs ih => simp [ih]; omega

/-- The total length written by the vector serializer is the compact-size
prefix length plus one byte per element. -/
theorem chunksTotalLen_serializeVecU8 (vec : List Nat) :
    chunksTotalLen (serializeVecU8Chunks vec) =
      compactSizeEncodedSize vec.length + vec.length := by
  simp only [serializeVecU8Chunks, chunksTotalLen, List.map_append, List.sum_append]
  have hmap : ((vec.map (fun b => [b % 256])).map List.length).sum = vec.length := by
    rw [List.map_map]
    have hcomp : (List.length ∘ fun b => [b % 256]) = fun _ => 1 := by
      funext b; simp
    rw [hcomp, sum_map_one]
  rw [hmap]
  congr 1
  simp only [compactSizeChunks, compactSizeEncodedSize]
  split
  · simp [chunksTotalLen]
  · split
    · simp [chunksTotalLen, leBytes_length]
    · split
      · simp [chunksTotalLen, leBytes_length]
      · simp [chunksTotalLen, leBytes_length]

/-- Claim C10: every byte-vector payload whose encoding (compact-size
length prefix plus contents) is longer than 1024 bytes fails to serialize
through `to_bytes`, with `buffer_overflow`: the 1024-byte buffer is never
grown, so no value with an encoding above 1 KiB can be serialized through
this interface. -/
theorem to_bytes_overflow_above_1024 (vec : List Nat)
    (h : 1024 < compactSizeEncodedSize vec.length + vec.length) :
    to_bytes vec = .error .buffer_overflow := by
  have h2 := runWrites_overflow (serializeVecU8Chunks vec) ⟨1024, []⟩ (by simp)
    (by simp only [chunksTotalLen_serializeVecU8]; simpa using h)
  simp [to_bytes, h2]

theorem to_bytes_overflow_above_1024_witness :
    1024 < compactSizeEncodedSize (List.replicate 1024 (0 : Nat)).length +
      (List.replicate 1024 (0 : Nat)).length ∧
    to_bytes (List.replicate 1024 0) = .error .buffer_overflow :=
  ⟨by norm_num [compactSizeEncodedSize], to_bytes_overflow_above_1024 _
    (by norm_num [compactSizeEncodedSize])⟩

end GoldcoinPoP
